import Mathlib

/-!
Shallow embedding of the folder-discovery core of `steam_folder_finder.py`
(class `SteamGameFinder`), together with theorems checking the natural-language
specification against it.

The filesystem is modelled as a structure of total functions (`FS`): `listdir`
and `getmtime` return `Option` results, `none` standing for the `PermissionError`
and `OSError` conditions that the Python code catches.  Python's `time.time()`
is the explicit parameter `now`; modification times are integers, and the
floating-point test `(now - mtime) / 86400 < d` is embedded as the equivalent
integer comparison `now - mtime < d * 86400`.  Python's stable `list.sort(key=...)`
is embedded as an insertion sort by an integer key, which is extensionally the
unique stable sort for a total key order.
-/

namespace SteamFolderFinder

/-! ## String helpers with Python semantics -/

/-- Whitespace characters of Python's `\s` class / `str.split()` (ASCII range). -/
def isSpaceChar (c : Char) : Bool :=
  c = ' ' || c = '\t' || c = '\n' || c = '\r' || c = '\x0b' || c = '\x0c'

/-- Delimiter class of the regex `[:\-\s\(\)]+` used in the source. -/
def isDelim (c : Char) : Bool :=
  c = ':' || c = '-' || isSpaceChar c || c = '(' || c = ')'

/-- Does some suffix of the character list satisfy `p`? -/
def anySuffix (p : List Char → Bool) : List Char → Bool
  | [] => p []
  | c :: rest => p (c :: rest) || anySuffix p rest

/-- Python's substring containment `pat in hay`. -/
def containsSub (hay pat : String) : Bool :=
  anySuffix (fun suf => pat.toList.isPrefixOf suf) hay.toList

/-- Python's `hay.startswith(pat)`. -/
def strStartsWith (hay pat : String) : Bool :=
  pat.toList.isPrefixOf hay.toList

/-- Python's `hay.endswith(pat)`. -/
def strEndsWith (hay pat : String) : Bool :=
  pat.toList.isSuffixOf hay.toList

/-- Python's `s.strip()` (strip leading and trailing whitespace). -/
def pyStrip (s : String) : String :=
  String.mk (((s.toList.dropWhile isSpaceChar).reverse.dropWhile isSpaceChar).reverse)

/-- Python's `s[:-1]`. -/
def pyDropLast (s : String) : String :=
  String.mk s.toList.dropLast

/-- Python's `s.lstrip("\\").lstrip("/")` as used in `check_wiki_path`. -/
def lstripSeps (s : String) : String :=
  String.mk ((s.toList.dropWhile (fun c => c = '\\')).dropWhile (fun c => c = '/'))

/-- Python's `s.lower()`: per-character lower-casing (kernel-reducible, unlike
the position-based `String.toLower`). -/
def strToLower (s : String) : String :=
  String.mk (s.toList.map Char.toLower)

/-- Fuel-based engine for `replaceList`: structural recursion on the fuel so
that the kernel can evaluate it.  Each step consumes at least one character of
`cs` (for a nonempty pattern), so fuel `cs.length` always suffices and the
fuel-exhausted arm is dead code. -/
def replaceListAux (pat repl : List Char) : Nat → List Char → List Char
  | 0, cs => cs
  | fuel + 1, cs =>
    match pat, cs with
    | [], _ => cs
    | _ :: _, [] => []
    | p :: ps, c :: rest =>
      if (p :: ps).isPrefixOf (c :: rest) then
        repl ++ replaceListAux (p :: ps) repl fuel (rest.drop ps.length)
      else c :: replaceListAux (p :: ps) repl fuel rest

/-- Replace all non-overlapping occurrences of `pat` left-to-right, as Python's
`str.replace` does; an empty pattern leaves the list unchanged (the source only
replaces nonempty patterns). -/
def replaceList (pat repl : List Char) (cs : List Char) : List Char :=
  replaceListAux pat repl cs.length cs

/-- Python's `s.replace(pat, repl)` (kernel-reducible). -/
def strReplace (s pat repl : String) : String :=
  String.mk (replaceList pat.toList repl.toList s.toList)

mutual

/-- Splitting on runs of characters satisfying `d`, as `re.split` on the
character class `d` does: `splitRuns` accumulates the current (reversed) token. -/
def splitRuns (d : Char → Bool) (cs : List Char) (acc : List Char) : List String :=
  match cs with
  | [] => [String.mk acc.reverse]
  | c :: rest =>
    if d c then String.mk acc.reverse :: skipDelims d rest
    else splitRuns d rest (c :: acc)

/-- After a delimiter run has started, consume the rest of the run. -/
def skipDelims (d : Char → Bool) (cs : List Char) : List String :=
  match cs with
  | [] => [""]
  | c :: rest => if d c then skipDelims d rest else splitRuns d rest [c]

end

/-- Python's `re.split(r'[:\-\s\(\)]+', s)`: delimiter runs collapse, and a
leading or trailing run contributes an empty string. -/
def resplitDelims (s : String) : List String :=
  splitRuns isDelim s.toList []

/-- Python's `s.split()` (split on whitespace runs, discarding empty pieces). -/
def splitWS (s : String) : List String :=
  (splitRuns isSpaceChar s.toList []).filter (fun t => t ≠ "")

/-- Does `cs` start with the word `w` immediately followed by a digit? -/
def matchWordDigit (w : String) (cs : List Char) : Bool :=
  w.toList.isPrefixOf cs &&
    (match cs.drop w.toList.length with
     | d :: _ => d.isDigit
     | [] => false)

/-- Python's `re.search(r'(save|slot|profile)\d+', s)` as a Boolean. -/
def hasNumberedSave (s : String) : Bool :=
  anySuffix (fun cs =>
    matchWordDigit "save" cs || matchWordDigit "slot" cs || matchWordDigit "profile" cs) s.toList

/-- POSIX `os.path.join` restricted to two components, as used in the source. -/
def joinPath (a b : String) : String :=
  if strStartsWith b "/" then b
  else if a = "" || strEndsWith a "/" then a ++ b
  else a ++ "/" ++ b

/-! ## Filesystem model -/

/-- Abstract filesystem: `listdir` and `getmtime` return `none` where the
Python code would catch `PermissionError` / `OSError`. -/
structure FS where
  pathExists : String → Bool
  isDir : String → Bool
  listdir : String → Option (List String)
  getmtime : String → Option Int

/-! ## KeywordExtractor: `extract_game_keywords` -/

/-- Stop-word set of `extract_game_keywords`. -/
def common_words : List String :=
  ["the", "and", "or", "of", "a", "an", "in", "on", "at", "to", "for", "with", "by"]

/-- Embedding of `extract_game_keywords` (source lines 522-545). -/
def extract_game_keywords (app_name : String) : List String :=
  let parts := resplitDelims (strToLower app_name)
  let words := parts.filterMap (fun part =>
    let part := pyStrip part
    if 2 < part.length && !(common_words.contains part) then some part else none)
  (words.flatMap (fun word =>
    if strEndsWith word "s" && 3 < word.length then [word, pyDropLast word] else [word])).dedup

/-! ## FolderMatcher: `calculate_folder_match_score` -/

/-- Generic folder-name vocabulary of `calculate_folder_match_score`. -/
def game_patterns : List String :=
  ["save", "saves", "savegame", "savegames", "savedata",
   "config", "settings", "profile", "profiles", "user",
   "data", "game", "local", "steam"]

/-- Embedding of `calculate_folder_match_score` (source lines 547-586). -/
def calculate_folder_match_score (folder_name : String) (game_words : List String)
    (full_game_name : String) : Int :=
  let folder_lower := strToLower folder_name
  if folder_lower = strToLower full_game_name then 10
  else
    let score : Int := 0
    let folder_words := (resplitDelims folder_lower).dedup
    let game_word_set := game_words.dedup
    let score :=
      if folder_words ≠ [] && game_word_set ≠ [] then
        let overlap : Int := ((folder_words.filter (fun w => game_word_set.contains w)).length : Int)
        if 2 ≤ overlap || (1 ≤ overlap && game_word_set.length ≤ 2) then score + overlap * 3
        else score
      else score
    let score := game_words.foldl (fun s word =>
      if containsSub folder_lower word then
        let s := s + 2
        if word = folder_lower || strStartsWith folder_lower word || strEndsWith folder_lower word
        then s + 1 else s
      else s) score
    game_patterns.foldl (fun s pat => if containsSub folder_lower pat then s + 1 else s) score

/-! ## ContentAssessor: `assess_save_folder_confidence` -/

/-- Save-like extension set of `assess_save_folder_confidence`. -/
def save_extensions : List String :=
  [".sav", ".save", ".dat", ".xml", ".json", ".cfg", ".ini", ".sl2", ".ess", ".bak", ".vdf"]

/-- Save-like name-pattern set of `assess_save_folder_confidence`. -/
def save_patterns : List String :=
  ["save", "profile", "config", "settings", "user", "slot", "progress", "savegame"]

/-- One loop iteration of `assess_save_folder_confidence`: the state is
`(confidence, recent_activity_bonus, recent_files)`. -/
def assess_step (fs : FS) (now : Int) (folder_path : String)
    (st : Int × Int × Int) (item : String) : Int × Int × Int :=
  let item_path := joinPath folder_path item
  let item_lower := strToLower item
  let mt :=
    match fs.getmtime item_path with
    | some mtime =>
      if now - mtime < 30 * 86400 then
        if now - mtime < 7 * 86400 then (st.2.1 + 2, st.2.2 + 1)
        else (st.2.1 + 1, st.2.2 + 1)
      else (st.2.1, st.2.2)
    | none => (st.2.1, st.2.2)
  let confidence :=
    if save_extensions.any (fun ext => strEndsWith item_lower ext) then st.1 + 2 else st.1
  let confidence :=
    if save_patterns.any (fun pat => containsSub item_lower pat) then confidence + 1
    else confidence
  let confidence := if hasNumberedSave item_lower then confidence + 2 else confidence
  (confidence, mt.1, mt.2)

/-- Embedding of `assess_save_folder_confidence` (source lines 588-647). -/
def assess_save_folder_confidence (fs : FS) (now : Int) (folder_path : String) : Int :=
  match fs.listdir folder_path with
  | none => 0
  | some items =>
    let st := items.foldl (assess_step fs now folder_path) (0, 0, 0)
    let confidence := st.1 + min st.2.1 5
    let confidence :=
      if 0 < items.length ∧ items.length < 50 ∧ 0 < st.2.2 then confidence + 2 else confidence
    min confidence 10

/-! ## PathTemplateResolver: `check_wiki_path` -/

/-- Tail of `check_wiki_path` shared by the three placeholder branches:
strip separators, require a nonempty remainder, normalize backslashes,
join, and test existence. -/
def resolveRel (fs : FS) (base_path raw : String) : List (String × String) :=
  let relative_path := lstripSeps raw
  if relative_path = "" then []
  else
    let relative_path := strReplace relative_path "\\" "/"
    let full_path := joinPath base_path relative_path
    if fs.pathExists full_path then [("PC Gaming Wiki Save Location", full_path)] else []

/-- Embedding of `check_wiki_path` (source lines 711-754).  The `game_name`
argument is unused, as in the source. -/
def check_wiki_path (fs : FS) (compatdata_path wiki_path _game_name : String) :
    List (String × String) :=
  if containsSub wiki_path "<SteamLibrary-folder>" || containsSub wiki_path "[Note" then []
  else if containsSub wiki_path "%APPDATA%" then
    resolveRel fs (joinPath compatdata_path "pfx/drive_c/users/steamuser/AppData/Roaming")
      (strReplace wiki_path "%APPDATA%" "")
  else if containsSub wiki_path "%LOCALAPPDATA%" then
    resolveRel fs (joinPath compatdata_path "pfx/drive_c/users/steamuser/AppData/Local")
      (strReplace wiki_path "%LOCALAPPDATA%" "")
  else if containsSub wiki_path "%USERPROFILE%" then
    resolveRel fs (joinPath compatdata_path "pfx/drive_c/users/steamuser")
      (strReplace wiki_path "%USERPROFILE%" "")
  else []

/-! ## DiscoveryEngine: `find_game_folders`, `find_folders`, `get_folder_priority` -/

/-- Classification of one directory entry inside the `find_game_folders` loop. -/
def classify_folder (fs : FS) (now : Int) (base_path : String) (game_words : List String)
    (app_name location_type : String) (item : String) : Option (String × String) :=
  let item_path := joinPath base_path item
  if fs.isDir item_path then
    let match_score := calculate_folder_match_score item game_words app_name
    if 0 < match_score then
      let save_confidence := assess_save_folder_confidence fs now item_path
      if 0 < save_confidence then
        let folder_desc :=
          if 2 ≤ save_confidence then "Likely Save Folder (" ++ location_type ++ ")"
          else "Game Folder (" ++ location_type ++ ")"
        some (folder_desc, item_path)
      else if 3 ≤ match_score then
        some ("Potential Game Folder (" ++ location_type ++ ")", item_path)
      else none
    else none
  else none

/-- Embedding of `find_game_folders` (source lines 492-520), returning the
entries it appends to `found_folders`; a `PermissionError` on `listdir`
contributes nothing. -/
def find_game_folders (fs : FS) (now : Int) (base_path app_name location_type : String) :
    List (String × String) :=
  match fs.listdir base_path with
  | none => []
  | some items =>
    items.filterMap
      (classify_folder fs now base_path (extract_game_keywords app_name) app_name location_type)

/-- The three AppData sub-locations probed by `find_folders`. -/
def appdata_paths (compatdata_path : String) : List (String × String) :=
  [("AppData/Local", joinPath compatdata_path "pfx/drive_c/users/steamuser/AppData/Local"),
   ("AppData/Roaming", joinPath compatdata_path "pfx/drive_c/users/steamuser/AppData/Roaming"),
   ("AppData/LocalLow", joinPath compatdata_path "pfx/drive_c/users/steamuser/AppData/LocalLow")]

/-- The other common sub-locations probed by `find_folders`. -/
def other_paths (compatdata_path : String) : List (String × String) :=
  [("Documents", joinPath compatdata_path "pfx/drive_c/users/steamuser/Documents"),
   ("My Games", joinPath compatdata_path "pfx/drive_c/users/steamuser/Documents/My Games"),
   ("Saved Games", joinPath compatdata_path "pfx/drive_c/users/steamuser/Saved Games")]

/-- Contribution of one Steam library to `found_folders` in `find_folders`
(source lines 398-434). -/
def library_folders (fs : FS) (now : Int) (library appId app_name : String)
    (wiki_paths : List String) : List (String × String) :=
  let compatdata_path := joinPath library appId
  if fs.pathExists compatdata_path then
    (wiki_paths.flatMap (fun wp => check_wiki_path fs compatdata_path wp app_name)) ++
    ((appdata_paths compatdata_path).flatMap (fun tp =>
      if fs.pathExists tp.2 then tp :: find_game_folders fs now tp.2 app_name tp.1 else [])) ++
    ((other_paths compatdata_path).flatMap (fun tp =>
      if fs.pathExists tp.2 then tp :: find_game_folders fs now tp.2 app_name tp.1 else []))
  else []

/-- All folders collected by `find_folders` before sorting, in discovery order. -/
def collect_folders (fs : FS) (now : Int) (libraries : List String) (appId app_name : String)
    (wiki_paths : List String) : List (String × String) :=
  libraries.flatMap (fun library => library_folders fs now library appId app_name wiki_paths)

/-- The recency bonus added by `get_folder_priority`; an unreadable modification
time contributes 0. -/
def recency_bonus (fs : FS) (now : Int) (path : String) : Int :=
  match fs.getmtime path with
  | none => 0
  | some mtime =>
    if now - mtime < 86400 then 20
    else if now - mtime < 7 * 86400 then 10
    else if now - mtime < 30 * 86400 then 5
    else 0

/-- Embedding of `get_folder_priority` (source lines 438-463): the sort key,
i.e. the negated priority. -/
def get_folder_priority (fs : FS) (now : Int) (folder_item : String × String) : Int :=
  let priority : Int := 0
  let priority :=
    if containsSub folder_item.1 "Likely Save Folder" then priority + 1000
    else if containsSub folder_item.1 "Game Folder" then priority + 100
    else if containsSub folder_item.1 "Potential" then priority + 50
    else priority
  let priority := priority + recency_bonus fs now folder_item.2
  Neg.neg priority

/-- The (positive) priority score of a found folder: the negation of the sort key. -/
def priorityScore (fs : FS) (now : Int) (folder_item : String × String) : Int :=
  -(get_folder_priority fs now folder_item)

/-- Stable insertion into a list ascending by an integer key. -/
def insertByKey {α : Type} (k : α → Int) (x : α) : List α → List α
  | [] => [x]
  | y :: ys => if k x ≤ k y then x :: y :: ys else y :: insertByKey k x ys

/-- Stable sort ascending by an integer key: extensionally the behaviour of
Python's `list.sort(key=...)`. -/
def sortByKey {α : Type} (k : α → Int) : List α → List α
  | [] => []
  | x :: xs => insertByKey k x (sortByKey k xs)

/-- Embedding of `find_folders` (source lines 365-490): collect, then sort by
`get_folder_priority` (ascending in the negated priority, i.e. descending in
priority, stably). -/
def find_folders (fs : FS) (now : Int) (libraries : List String) (appId app_name : String)
    (wiki_paths : List String) : List (String × String) :=
  sortByKey (get_folder_priority fs now)
    (collect_folders fs now libraries appId app_name wiki_paths)

/-! ## fuzzy_search -/

/-- A catalog entry as consumed by `fuzzy_search`. -/
structure App where
  name : String
  appid : Nat
deriving DecidableEq

/-- Relevance score of `fuzzy_search` for one (lower-cased) name. -/
def fuzzy_score (query_lower name_lower : String) : Int :=
  let score : Int := 0
  let score := if strStartsWith name_lower query_lower then score + 100 else score
  let score := if query_lower = name_lower then score + 200 else score
  (splitWS name_lower).foldl
    (fun s word => if strStartsWith word query_lower then s + 50 else s) score

/-- The scored match list built by the loop of `fuzzy_search`. -/
def scoredCandidates (query_lower : String) (apps : List App) : List (Int × App) :=
  apps.filterMap (fun app =>
    let name_lower := strToLower app.name
    if containsSub name_lower query_lower then some (fuzzy_score query_lower name_lower, app)
    else none)

/-- Embedding of `fuzzy_search` (source lines 331-356): filter by containment,
sort descending by score (stable), drop the scores. -/
def fuzzy_search (query : String) (apps : List App) : List App :=
  (sortByKey (fun m => -m.1) (scoredCandidates (strToLower query) apps)).map (fun m => m.2)

/-! ## Generic lemmas about the stable key sort -/

theorem mem_insertByKey {α : Type} (k : α → Int) (x : α) (l : List α) (a : α) :
    a ∈ insertByKey k x l ↔ a = x ∨ a ∈ l := by
  induction l with
  | nil => simp [insertByKey]
  | cons y ys ih =>
    by_cases h : k x ≤ k y
    · simp [insertByKey, h]
    · simp only [insertByKey, if_neg h, List.mem_cons, ih]
      tauto

theorem perm_insertByKey {α : Type} (k : α → Int) (x : α) (l : List α) :
    List.Perm (insertByKey k x l) (x :: l) := by
  induction l with
  | nil => simp [insertByKey]
  | cons y ys ih =>
    by_cases h : k x ≤ k y
    · simp [insertByKey, h]
    · have h1 : insertByKey k x (y :: ys) = y :: insertByKey k x ys := by
        simp [insertByKey, h]
      rw [h1]
      exact (ih.cons y).trans (List.Perm.swap x y ys)

theorem sortByKey_perm {α : Type} (k : α → Int) (l : List α) :
    List.Perm (sortByKey k l) l := by
  induction l with
  | nil => simp [sortByKey]
  | cons x xs ih =>
    have h1 : sortByKey k (x :: xs) = insertByKey k x (sortByKey k xs) := rfl
    rw [h1]
    exact (perm_insertByKey k x _).trans (ih.cons x)

theorem pairwise_insertByKey {α : Type} {k : α → Int} {x : α} {l : List α}
    (h : l.Pairwise (fun a b => k a ≤ k b)) :
    (insertByKey k x l).Pairwise (fun a b => k a ≤ k b) := by
  induction l with
  | nil => simp [insertByKey]
  | cons y ys ih =>
    rcases List.pairwise_cons.mp h with ⟨hy, hys⟩
    by_cases hxy : k x ≤ k y
    · simp only [insertByKey, if_pos hxy]
      refine List.pairwise_cons.mpr ⟨?_, h⟩
      intro z hz
      rcases List.mem_cons.mp hz with rfl | hz
      · exact hxy
      · exact le_trans hxy (hy z hz)
    · simp only [insertByKey, if_neg hxy]
      refine List.pairwise_cons.mpr ⟨?_, ih hys⟩
      intro z hz
      rcases (mem_insertByKey k x ys z).mp hz with rfl | hz
      · exact le_of_lt (lt_of_not_le hxy)
      · exact hy z hz

theorem sortByKey_pairwise {α : Type} (k : α → Int) (l : List α) :
    (sortByKey k l).Pairwise (fun a b => k a ≤ k b) := by
  induction l with
  | nil => simp [sortByKey]
  | cons x xs ih => exact pairwise_insertByKey ih

theorem filter_insertByKey {α : Type} (k : α → Int) (x : α) (l : List α) (v : Int) :
    (insertByKey k x l).filter (fun a => k a == v) =
      if k x == v then x :: l.filter (fun a => k a == v)
      else l.filter (fun a => k a == v) := by
  induction l with
  | nil =>
    show List.filter _ [x] = _
    rw [List.filter_cons]
  | cons y ys ih =>
    by_cases hxy : k x ≤ k y
    · simp only [insertByKey, if_pos hxy]
      simp only [List.filter_cons]
    · simp only [insertByKey, if_neg hxy]
      rw [List.filter_cons, ih]
      by_cases hx : k x = v <;> by_cases hy : k y = v
      · exact absurd (by omega : k x ≤ k y) hxy
      · simp [hx, hy, List.filter_cons]
      · simp [hx, hy, List.filter_cons]
      · simp [hx, hy, List.filter_cons]

theorem sortByKey_filter {α : Type} (k : α → Int) (l : List α) (v : Int) :
    (sortByKey k l).filter (fun a => k a == v) = l.filter (fun a => k a == v) := by
  induction l with
  | nil => rfl
  | cons x xs ih =>
    show (insertByKey k x (sortByKey k xs)).filter _ = _
    rw [filter_insertByKey, List.filter_cons]
    by_cases hx : k x == v <;> simp [hx, ih]

/-- Bool-level rewriting of an integer key comparison through negation. -/
theorem beq_neg_iff (x v : Int) : ((-x : Int) == v) = (x == -v) := by
  rw [Bool.eq_iff_iff]
  simp only [beq_iff_eq]
  omega

/-! ## Helper lemmas about the content assessor -/

theorem assess_step_ge (fs : FS) (now : Int) (folder_path : String)
    (st : Int × Int × Int) (item : String) :
    st.1 ≤ (assess_step fs now folder_path st item).1 ∧
    st.2.1 ≤ (assess_step fs now folder_path st item).2.1 ∧
    st.2.2 ≤ (assess_step fs now folder_path st item).2.2 := by
  dsimp only [assess_step]
  refine ⟨?_, ?_, ?_⟩ <;> (cases fs.getmtime (joinPath folder_path item)) <;>
    (repeat' split) <;> (try dsimp only) <;> omega

theorem assess_foldl_ge (fs : FS) (now : Int) (folder_path : String) :
    ∀ (items : List String) (st : Int × Int × Int),
      st.1 ≤ (items.foldl (assess_step fs now folder_path) st).1 ∧
      st.2.1 ≤ (items.foldl (assess_step fs now folder_path) st).2.1 ∧
      st.2.2 ≤ (items.foldl (assess_step fs now folder_path) st).2.2 := by
  intro items
  induction items with
  | nil => intro st; exact ⟨le_refl _, le_refl _, le_refl _⟩
  | cons i rest ih =>
    intro st
    simp only [List.foldl_cons]
    have h1 := assess_step_ge fs now folder_path st i
    have h2 := ih (assess_step fs now folder_path st i)
    exact ⟨le_trans h1.1 h2.1, le_trans h1.2.1 h2.2.1, le_trans h1.2.2 h2.2.2⟩

theorem assess_nonneg (fs : FS) (now : Int) (p : String) :
    0 ≤ assess_save_folder_confidence fs now p := by
  unfold assess_save_folder_confidence
  cases h : fs.listdir p with
  | none => simp
  | some items =>
    have h0 := assess_foldl_ge fs now p items (0, 0, 0)
    dsimp only at h0 ⊢
    split <;> omega

theorem assess_le_ten (fs : FS) (now : Int) (p : String) :
    assess_save_folder_confidence fs now p ≤ 10 := by
  unfold assess_save_folder_confidence
  cases h : fs.listdir p with
  | none => simp
  | some items =>
    dsimp only
    split <;> omega

/-! ## Helper lemmas about the fuzzy-search candidate list -/

theorem map_snd_scoredCandidates (ql : String) (apps : List App) :
    (scoredCandidates ql apps).map (fun m => m.2) =
      apps.filter (fun a => containsSub (strToLower a.name) ql) := by
  induction apps with
  | nil => rfl
  | cons a rest ih =>
    by_cases h : containsSub (strToLower a.name) ql <;>
      simp [scoredCandidates, List.filterMap_cons, h, List.filter_cons, ih] <;>
      simpa [scoredCandidates] using ih

theorem mem_scoredCandidates {ql : String} {apps : List App} {m : Int × App}
    (h : m ∈ scoredCandidates ql apps) :
    m.1 = fuzzy_score ql (strToLower m.2.name) ∧ m.2 ∈ apps ∧
      containsSub (strToLower m.2.name) ql = true := by
  rcases List.mem_filterMap.mp h with ⟨a, ha, hfa⟩
  dsimp only at hfa
  by_cases hc : containsSub (strToLower a.name) ql
  · rw [if_pos hc] at hfa
    cases hfa
    exact ⟨rfl, ha, hc⟩
  · rw [if_neg hc] at hfa
    cases hfa

/-! ## Concrete filesystem models used as witnesses and counterexamples -/

/-- A filesystem whose directories all read as empty. -/
def fsEmptyDirs : FS :=
  ⟨fun _ => false, fun _ => false, fun _ => some [], fun _ => none⟩

/-- A filesystem on which every path exists (directory listings denied). -/
def fsAllExists : FS :=
  ⟨fun _ => true, fun _ => true, fun _ => none, fun _ => none⟩

/-- A filesystem with nothing on it: no paths, all listings denied. -/
def fsAbsent : FS :=
  ⟨fun _ => false, fun _ => false, fun _ => none, fun _ => none⟩

/-- A filesystem where only a compat-data directory `L/1` and the wiki-hinted
folder under its emulated AppData/Roaming exist. -/
def fsWikiOnly : FS :=
  ⟨fun p => p == "L/1" || p == "L/1/pfx/drive_c/users/steamuser/AppData/Roaming/G",
   fun _ => false, fun _ => none, fun _ => none⟩

/-- A filesystem holding one game directory `b/g` that contains `save1.sav`. -/
def fsLikely : FS :=
  ⟨fun _ => false, fun p => p == "b/g",
   fun p => if p == "b" then some ["g"] else if p == "b/g" then some ["save1.sav"] else none,
   fun _ => none⟩

/-! ## Claim theorems -/

/-- C2 counterexample: the claim says `extract` never returns a stop word, but
the singularized variant of the token `"thes"` is the stop word `"the"`, which
`extract_game_keywords "thes"` returns. -/
theorem c2_counterexample :
    "the" ∈ extract_game_keywords "thes" ∧ "the" ∈ common_words := by
  decide

/-- C2 (amended): every token returned by `extract_game_keywords` has length
greater than 2; a returned token can be a stop word only as the singularized
variant of a returned token ending in `s` (its plural is returned alongside). -/
theorem c2_amended (title tok : String) (h : tok ∈ extract_game_keywords title) :
    2 < tok.length ∧ (tok ∈ common_words → tok ++ "s" ∈ extract_game_keywords title) := by
  unfold extract_game_keywords at h ⊢
  rw [List.mem_dedup] at h
  rcases List.mem_flatMap.mp h with ⟨w, hw, htw⟩
  rcases List.mem_filterMap.mp hw with ⟨part, _hpart, hpf⟩
  dsimp only at hpf
  by_cases hc : (2 < (pyStrip part).length && !(common_words.contains (pyStrip part))) = true
  · rw [if_pos hc] at hpf
    injection hpf with hpf
    rw [Bool.and_eq_true, decide_eq_true_eq, Bool.not_eq_true'] at hc
    have hwlen : 2 < w.length := hpf ▸ hc.1
    have hwmem : w ∉ common_words := by
      intro hm
      rw [← hpf] at hm
      exact absurd (List.elem_eq_true_of_mem hm) (by simpa using hc.2)
    by_cases hs : (strEndsWith w "s" && 3 < w.length) = true
    · rw [if_pos hs] at htw
      have hs' := hs
      rw [Bool.and_eq_true, decide_eq_true_eq] at hs
      rcases List.mem_pair.mp htw with rfl | rfl
      · exact ⟨hwlen, fun hm => absurd hm hwmem⟩
      · have hsuf : ['s'] <:+ w.toList := by
          have := hs.1
          rw [strEndsWith] at this
          simpa using this
        have hcat : pyDropLast w ++ "s" = w := by
          rcases hsuf with ⟨t, ht⟩
          show String.mk (w.toList.dropLast ++ ['s']) = w
          have hd : w.toList.dropLast ++ ['s'] = w.toList := by
            rw [← ht]
            simp
          rw [hd]
          cases w
          rfl
        constructor
        · show 2 < (String.mk w.toList.dropLast).length
          have h3 : 3 < w.toList.length := hs.2
          have : (String.mk w.toList.dropLast).length = w.toList.dropLast.length := rfl
          rw [this, List.length_dropLast]
          omega
        · intro _
          rw [List.mem_dedup, hcat]
          refine List.mem_flatMap.mpr ⟨w, hw, ?_⟩
          rw [if_pos hs']
          exact List.mem_cons_self _ _
    · rw [if_neg hs] at htw
      rcases List.mem_singleton.mp htw with rfl
      exact ⟨hwlen, fun hm => absurd hm hwmem⟩
  · rw [if_neg hc] at hpf
    cases hpf

/-- C2 (amended) witness: at title `"thes"` and token `"the"`. -/
theorem c2_amended_witness :
    2 < ("the" : String).length ∧
      ("the" ∈ common_words → "the" ++ "s" ∈ extract_game_keywords "thes") :=
  c2_amended "thes" "the" (by decide)

/-- C3 counterexample: `calculate_folder_match_score` can return exactly 10
without the case-folded names being equal: folder `"savegames"` with token set
`{"savegames"}` and title `"foo"` accumulates 3 (overlap) + 3 (substring and
boundary) + 4 (generic patterns) = 10. -/
theorem c3_counterexample :
    calculate_folder_match_score "savegames" ["savegames"] "foo" = 10 ∧
      strToLower "savegames" ≠ strToLower "foo" := by
  constructor
  · decide
  · decide

/-- C3 (amended): a case-insensitive exact match always returns exactly 10
(the converse direction of the claim fails, see the counterexample). -/
theorem c3_amended (folder_name : String) (game_words : List String)
    (full_game_name : String) (h : strToLower folder_name = strToLower full_game_name) :
    calculate_folder_match_score folder_name game_words full_game_name = 10 := by
  unfold calculate_folder_match_score
  rw [if_pos h]

/-- C3 (amended) witness: folder `"A"` against title `"a"`. -/
theorem c3_amended_witness :
    calculate_folder_match_score "A" [] "a" = 10 :=
  c3_amended "A" [] "a" (by decide)

/-- C5: `assess_save_folder_confidence` always returns an integer in `[0, 10]`,
and returns exactly 0 on a directory with no children. -/
theorem c5_assess_range (fs : FS) (now : Int) (p : String) :
    0 ≤ assess_save_folder_confidence fs now p ∧
      assess_save_folder_confidence fs now p ≤ 10 ∧
      (fs.listdir p = some [] → assess_save_folder_confidence fs now p = 0) := by
  refine ⟨assess_nonneg fs now p, assess_le_ten fs now p, fun h => ?_⟩
  unfold assess_save_folder_confidence
  rw [h]
  simp

/-- C5 witness: on a filesystem whose directories are all empty. -/
theorem c5_assess_range_witness :
    0 ≤ assess_save_folder_confidence fsEmptyDirs 0 "d" ∧
      assess_save_folder_confidence fsEmptyDirs 0 "d" ≤ 10 ∧
      assess_save_folder_confidence fsEmptyDirs 0 "d" = 0 := by
  have h := c5_assess_range fsEmptyDirs 0 "d"
  exact ⟨h.1, h.2.1, h.2.2 rfl⟩

/-- C1 counterexample: a run of the discovery engine in which the only result
is derived from a template hint.  Its label is `"PC Gaming Wiki Save Location"`,
which matches none of the tier substrings of `get_folder_priority`, so its
priority score is 0 (base tier 0, recency bonus 0), not 1000. -/
theorem c1_counterexample :
    find_folders fsWikiOnly 0 ["L"] "1" "t" ["%APPDATA%\\G"] =
      [("PC Gaming Wiki Save Location", "L/1/pfx/drive_c/users/steamuser/AppData/Roaming/G")] ∧
    priorityScore fsWikiOnly 0
      ("PC Gaming Wiki Save Location", "L/1/pfx/drive_c/users/steamuser/AppData/Roaming/G") = 0 ∧
    (0 : Int) ≠ 1000 := by
  refine ⟨by decide, by decide, by decide⟩

/-- C1 (amended): wiki-hint folders are labeled
`"PC Gaming Wiki Save Location"`, which matches none of the priority tiers, so
they receive base priority 0 plus the recency bonus — the landmark tier, always
strictly below the 1000 tier of `"Likely Save Folder"` entries. -/
theorem c1_amended (fs : FS) (now : Int) (p : String) :
    priorityScore fs now ("PC Gaming Wiki Save Location", p) = recency_bonus fs now p ∧
    priorityScore fs now ("PC Gaming Wiki Save Location", p) < 1000 := by
  have h1 : containsSub "PC Gaming Wiki Save Location" "Likely Save Folder" = false := by decide
  have h2 : containsSub "PC Gaming Wiki Save Location" "Game Folder" = false := by decide
  have h3 : containsSub "PC Gaming Wiki Save Location" "Potential" = false := by decide
  have hb : recency_bonus fs now p < 1000 := by
    unfold recency_bonus
    split <;> (repeat' split) <;> omega
  have hmain : priorityScore fs now ("PC Gaming Wiki Save Location", p) =
      recency_bonus fs now p := by
    unfold priorityScore get_folder_priority
    simp [h1, h2, h3]
  exact ⟨hmain, hmain ▸ hb⟩

/-- Helper: every entry produced by `resolveRel` carries the wiki label and an
existing path. -/
theorem mem_resolveRel {fs : FS} {base raw : String} {entry : String × String}
    (h : entry ∈ resolveRel fs base raw) :
    entry.1 = "PC Gaming Wiki Save Location" ∧ fs.pathExists entry.2 = true := by
  unfold resolveRel at h
  by_cases h0 : lstripSeps raw = ""
  · rw [if_pos h0] at h
    cases h
  · rw [if_neg h0] at h
    dsimp only at h
    by_cases hex : fs.pathExists (joinPath base (strReplace (lstripSeps raw) "\\" "/")) = true
    · rw [if_pos hex] at h
      rcases List.mem_singleton.mp h with rfl
      exact ⟨rfl, hex⟩
    · rw [if_neg hex] at h
      cases h

/-- C7: `check_wiki_path` yields a candidate only when the template contains
one of the three supported placeholders and neither rejection marker, and the
resolved path exists; the candidate carries the wiki label.  (In every other
case the function returns the empty list — it is total, so no error can
propagate.) -/
theorem c7_wiki_necessity (fs : FS) (compat wp gname : String) (entry : String × String)
    (hmem : entry ∈ check_wiki_path fs compat wp gname) :
    entry.1 = "PC Gaming Wiki Save Location" ∧ fs.pathExists entry.2 = true ∧
      containsSub wp "<SteamLibrary-folder>" = false ∧ containsSub wp "[Note" = false ∧
      (containsSub wp "%APPDATA%" = true ∨ containsSub wp "%LOCALAPPDATA%" = true ∨
        containsSub wp "%USERPROFILE%" = true) := by
  unfold check_wiki_path at hmem
  by_cases hm : (containsSub wp "<SteamLibrary-folder>" || containsSub wp "[Note") = true
  · rw [if_pos hm] at hmem
    cases hmem
  · rw [if_neg hm] at hmem
    simp only [Bool.or_eq_true, not_or, Bool.not_eq_true] at hm
    by_cases hA : containsSub wp "%APPDATA%" = true
    · rw [if_pos hA] at hmem
      rcases mem_resolveRel hmem with ⟨hl, he⟩
      exact ⟨hl, he, hm.1, hm.2, Or.inl hA⟩
    · rw [if_neg hA] at hmem
      by_cases hL : containsSub wp "%LOCALAPPDATA%" = true
      · rw [if_pos hL] at hmem
        rcases mem_resolveRel hmem with ⟨hl, he⟩
        exact ⟨hl, he, hm.1, hm.2, Or.inr (Or.inl hL)⟩
      · rw [if_neg hL] at hmem
        by_cases hU : containsSub wp "%USERPROFILE%" = true
        · rw [if_pos hU] at hmem
          rcases mem_resolveRel hmem with ⟨hl, he⟩
          exact ⟨hl, he, hm.1, hm.2, Or.inr (Or.inr hU)⟩
        · rw [if_neg hU] at hmem
          cases hmem

/-- C7 witness: resolving `"%APPDATA%\\Foo"` on an all-existing filesystem. -/
theorem c7_wiki_necessity_witness :
    (("PC Gaming Wiki Save Location",
        "C/pfx/drive_c/users/steamuser/AppData/Roaming/Foo") : String × String).1 =
        "PC Gaming Wiki Save Location" ∧
      fsAllExists.pathExists
        (("PC Gaming Wiki Save Location",
          "C/pfx/drive_c/users/steamuser/AppData/Roaming/Foo") : String × String).2 = true ∧
      containsSub "%APPDATA%\\Foo" "<SteamLibrary-folder>" = false ∧
      containsSub "%APPDATA%\\Foo" "[Note" = false ∧
      (containsSub "%APPDATA%\\Foo" "%APPDATA%" = true ∨
        containsSub "%APPDATA%\\Foo" "%LOCALAPPDATA%" = true ∨
        containsSub "%APPDATA%\\Foo" "%USERPROFILE%" = true) :=
  c7_wiki_necessity fsAllExists "C" "%APPDATA%\\Foo" "g" _ (by decide)

/-- Helper: `collect_folders` is empty when no compat-data directory exists. -/
theorem collect_folders_nil (fs : FS) (now : Int) (appId app_name : String)
    (wiki_paths : List String) :
    ∀ libs : List String, (∀ lib ∈ libs, fs.pathExists (joinPath lib appId) = false) →
      collect_folders fs now libs appId app_name wiki_paths = [] := by
  intro libs
  induction libs with
  | nil => intro _; rfl
  | cons lib rest ih =>
    intro h
    have h0 : library_folders fs now lib appId app_name wiki_paths = [] := by
      unfold library_folders
      simp [h lib (List.mem_cons_self _ _)]
    have hstep : collect_folders fs now (lib :: rest) appId app_name wiki_paths =
        library_folders fs now lib appId app_name wiki_paths ++
          collect_folders fs now rest appId app_name wiki_paths := rfl
    rw [hstep, h0, ih (fun l hl => h l (List.mem_cons_of_mem _ hl))]
    rfl

/-- C8: the discovery engine absorbs filesystem failures (the embedding is a
total function, so nothing can raise): if no compat-data directory exists for
the app id under any library root, `find_folders` returns the empty sequence;
and a denied directory listing makes `find_game_folders` contribute nothing. -/
theorem c8_failure_absorption (fs : FS) (now : Int) (libraries : List String)
    (appId app_name : String) (wiki_paths : List String) :
    ((∀ lib ∈ libraries, fs.pathExists (joinPath lib appId) = false) →
        find_folders fs now libraries appId app_name wiki_paths = []) ∧
    (∀ base location_type : String, fs.listdir base = none →
        find_game_folders fs now base app_name location_type = []) := by
  constructor
  · intro hno
    unfold find_folders
    rw [collect_folders_nil fs now appId app_name wiki_paths libraries hno]
    rfl
  · intro base location_type h
    unfold find_game_folders
    rw [h]

/-- C8 witness: a filesystem with no paths and all listings denied. -/
theorem c8_failure_absorption_witness :
    find_folders fsAbsent 0 ["L"] "1" "t" [] = [] ∧
      find_game_folders fsAbsent 0 "b" "t" "X" = [] := by
  have h := c8_failure_absorption fsAbsent 0 ["L"] "1" "t" []
  refine ⟨h.1 ?_, h.2 "b" "X" rfl⟩
  intro lib hl
  rcases List.mem_singleton.mp hl with rfl
  rfl

/-- C10: a template reduced to one supported placeholder with nothing left
after stripping the placeholder and leading separators produces no candidate,
whatever the filesystem (in particular even when the base directory exists). -/
theorem c10_bare_placeholder (fs : FS) (compat gname wp : String)
    (hm1 : containsSub wp "<SteamLibrary-folder>" = false)
    (hm2 : containsSub wp "[Note" = false)
    (h : (containsSub wp "%APPDATA%" = true ∧
            lstripSeps (strReplace wp "%APPDATA%" "") = "") ∨
         (containsSub wp "%APPDATA%" = false ∧ containsSub wp "%LOCALAPPDATA%" = true ∧
            lstripSeps (strReplace wp "%LOCALAPPDATA%" "") = "") ∨
         (containsSub wp "%APPDATA%" = false ∧ containsSub wp "%LOCALAPPDATA%" = false ∧
            containsSub wp "%USERPROFILE%" = true ∧
            lstripSeps (strReplace wp "%USERPROFILE%" "") = "")) :
    check_wiki_path fs compat wp gname = [] := by
  have hresolve : ∀ base raw, lstripSeps raw = "" → resolveRel fs base raw = [] := by
    intro base raw h0
    unfold resolveRel
    rw [if_pos h0]
  unfold check_wiki_path
  rw [if_neg (by simp [hm1, hm2])]
  rcases h with ⟨hA, h0⟩ | ⟨hA, hL, h0⟩ | ⟨hA, hL, hU, h0⟩
  · rw [if_pos hA]
    exact hresolve _ _ h0
  · rw [if_neg (by simp [hA]), if_pos hL]
    exact hresolve _ _ h0
  · rw [if_neg (by simp [hA]), if_neg (by simp [hL]), if_pos hU]
    exact hresolve _ _ h0

/-- C10 witness: the bare app-data-roaming marker on an all-existing
filesystem. -/
theorem c10_bare_placeholder_witness :
    check_wiki_path fsAllExists "C" "%APPDATA%" "g" = [] :=
  c10_bare_placeholder fsAllExists "C" "g" "%APPDATA%" (by decide) (by decide)
    (Or.inl ⟨by decide, by decide⟩)

/-- C4: every folder emitted by `find_game_folders` comes from a scanned child
with a positive match score, and its label agrees with the classification
thresholds: `"Likely Save Folder"` iff confidence ≥ 2, `"Game Folder"` iff
confidence in (0, 2), `"Potential Game Folder"` iff confidence = 0 and match
score ≥ 3; no child with match score 0 is emitted. -/
theorem c4_classification (fs : FS) (now : Int) (base_path app_name location_type : String)
    (d p : String) (hmem : (d, p) ∈ find_game_folders fs now base_path app_name location_type) :
    ∃ items item, fs.listdir base_path = some items ∧ item ∈ items ∧
      p = joinPath base_path item ∧
      0 < calculate_folder_match_score item (extract_game_keywords app_name) app_name ∧
      ((2 ≤ assess_save_folder_confidence fs now p ∧
          d = "Likely Save Folder (" ++ location_type ++ ")") ∨
       (0 < assess_save_folder_confidence fs now p ∧
          assess_save_folder_confidence fs now p < 2 ∧
          d = "Game Folder (" ++ location_type ++ ")") ∨
       (assess_save_folder_confidence fs now p = 0 ∧
          3 ≤ calculate_folder_match_score item (extract_game_keywords app_name) app_name ∧
          d = "Potential Game Folder (" ++ location_type ++ ")")) := by
  unfold find_game_folders at hmem
  rcases hl : fs.listdir base_path with _ | items
  · rw [hl] at hmem
    cases hmem
  · rw [hl] at hmem
    rcases List.mem_filterMap.mp hmem with ⟨item, hitem, hcls⟩
    refine ⟨items, item, rfl, hitem, ?_⟩
    unfold classify_folder at hcls
    dsimp only at hcls
    by_cases hdir : fs.isDir (joinPath base_path item) = true
    case neg =>
      rw [if_neg hdir] at hcls
      cases hcls
    rw [if_pos hdir] at hcls
    by_cases h1 : 0 < calculate_folder_match_score item (extract_game_keywords app_name) app_name
    case neg =>
      rw [if_neg h1] at hcls
      cases hcls
    rw [if_pos h1] at hcls
    by_cases h2 : 0 < assess_save_folder_confidence fs now (joinPath base_path item)
    · rw [if_pos h2] at hcls
      injection hcls with hpair
      rw [Prod.mk.injEq] at hpair
      obtain ⟨hd, hp⟩ := hpair
      subst hp
      refine ⟨rfl, h1, ?_⟩
      by_cases h3 : 2 ≤ assess_save_folder_confidence fs now (joinPath base_path item)
      · rw [if_pos h3] at hd
        exact Or.inl ⟨h3, hd.symm⟩
      · rw [if_neg h3] at hd
        exact Or.inr (Or.inl ⟨h2, by omega, hd.symm⟩)
    · rw [if_neg h2] at hcls
      by_cases h3 : 3 ≤ calculate_folder_match_score item (extract_game_keywords app_name) app_name
      · rw [if_pos h3] at hcls
        injection hcls with hpair
        rw [Prod.mk.injEq] at hpair
        obtain ⟨hd, hp⟩ := hpair
        subst hp
        have hnn := assess_nonneg fs now (joinPath base_path item)
        exact ⟨rfl, h1, Or.inr (Or.inr ⟨by omega, h3, hd.symm⟩)⟩
      · rw [if_neg h3] at hcls
        cases hcls

/-- C4 witness: a directory `b/g` containing `save1.sav` is emitted as a
`"Likely Save Folder"`. -/
theorem c4_classification_witness :
    ∃ items item, fsLikely.listdir "b" = some items ∧ item ∈ items ∧
      "b/g" = joinPath "b" item ∧
      0 < calculate_folder_match_score item (extract_game_keywords "g") "g" ∧
      ((2 ≤ assess_save_folder_confidence fsLikely 0 "b/g" ∧
          "Likely Save Folder (X)" = "Likely Save Folder (" ++ "X" ++ ")") ∨
       (0 < assess_save_folder_confidence fsLikely 0 "b/g" ∧
          assess_save_folder_confidence fsLikely 0 "b/g" < 2 ∧
          "Likely Save Folder (X)" = "Game Folder (" ++ "X" ++ ")") ∨
       (assess_save_folder_confidence fsLikely 0 "b/g" = 0 ∧
          3 ≤ calculate_folder_match_score item (extract_game_keywords "g") "g" ∧
          "Likely Save Folder (X)" = "Potential Game Folder (" ++ "X" ++ ")")) :=
  c4_classification fsLikely 0 "b" "g" "X" "Likely Save Folder (X)" "b/g" (by decide)

/-- C6: the output of the discovery engine is sorted descending by priority
score, and entries of equal priority score keep their relative discovery order
(the sort is stable): filtering the output at any priority value gives exactly
the corresponding slice of the pre-sort collection, in order. -/
theorem c6_sorted_stable (fs : FS) (now : Int) (libraries : List String)
    (appId app_name : String) (wiki_paths : List String) :
    (find_folders fs now libraries appId app_name wiki_paths).Pairwise
      (fun a b => priorityScore fs now b ≤ priorityScore fs now a) ∧
    (∀ v : Int,
      (find_folders fs now libraries appId app_name wiki_paths).filter
        (fun fi => priorityScore fs now fi == v) =
      (collect_folders fs now libraries appId app_name wiki_paths).filter
        (fun fi => priorityScore fs now fi == v)) := by
  constructor
  · have h := sortByKey_pairwise (get_folder_priority fs now)
      (collect_folders fs now libraries appId app_name wiki_paths)
    exact h.imp (fun {a b} hab => by unfold priorityScore; omega)
  · intro v
    have hp : (fun fi : String × String => priorityScore fs now fi == v) =
        (fun fi : String × String => get_folder_priority fs now fi == -v) := by
      funext fi
      unfold priorityScore
      rw [beq_neg_iff]
    rw [hp]
    exact sortByKey_filter _ _ _

/-- Helper: `fuzzy_search` returns a permutation of the case-insensitive
containment filter of the catalog. -/
theorem fuzzy_search_perm (query : String) (apps : List App) :
    List.Perm (fuzzy_search query apps)
      (apps.filter (fun a => containsSub (strToLower a.name) (strToLower query))) := by
  have hperm : List.Perm
      ((sortByKey (fun m : Int × App => -m.1)
        (scoredCandidates (strToLower query) apps)).map (fun m => m.2))
      ((scoredCandidates (strToLower query) apps).map (fun m => m.2)) :=
    List.Perm.map _ (sortByKey_perm _ _)
  rw [map_snd_scoredCandidates] at hperm
  exact hperm

/-- Helper: `fuzzy_search` output is sorted descending by relevance score. -/
theorem fuzzy_search_pairwise (query : String) (apps : List App) :
    (fuzzy_search query apps).Pairwise (fun a b =>
      fuzzy_score (strToLower query) (strToLower b.name) ≤
        fuzzy_score (strToLower query) (strToLower a.name)) := by
  unfold fuzzy_search
  rw [List.pairwise_map]
  have hpw := sortByKey_pairwise (fun m : Int × App => -m.1)
    (scoredCandidates (strToLower query) apps)
  refine hpw.imp_of_mem (fun {a b} ha hb hab => ?_)
  have ha' := mem_scoredCandidates ((sortByKey_perm _ _).subset ha)
  have hb' := mem_scoredCandidates ((sortByKey_perm _ _).subset hb)
  rw [← ha'.1, ← hb'.1]
  omega

/-- Helper: entries of equal relevance score keep catalog order. -/
theorem fuzzy_search_stable (query : String) (apps : List App) (v : Int) :
    (fuzzy_search query apps).filter
      (fun a => fuzzy_score (strToLower query) (strToLower a.name) == v) =
    (apps.filter (fun a => containsSub (strToLower a.name) (strToLower query))).filter
      (fun a => fuzzy_score (strToLower query) (strToLower a.name) == v) := by
  unfold fuzzy_search
  rw [List.filter_map]
  have hcongr : ∀ l : List (Int × App),
      (∀ m ∈ l, m ∈ scoredCandidates (strToLower query) apps) →
      l.filter ((fun a => fuzzy_score (strToLower query) (strToLower a.name) == v) ∘
          (fun m : Int × App => m.2)) =
        l.filter (fun m : Int × App => (fun m : Int × App => -m.1) m == -v) := by
    intro l hl
    refine List.filter_congr (fun m hm => ?_)
    have h1 := mem_scoredCandidates (hl m hm)
    show (fuzzy_score (strToLower query) (strToLower m.2.name) == v) = ((-m.1) == -v)
    rw [← h1.1, beq_neg_iff, neg_neg]
  rw [hcongr _ (fun m hm => (sortByKey_perm _ _).subset hm), sortByKey_filter,
    ← hcongr _ (fun m hm => hm), ← List.filter_map, map_snd_scoredCandidates]

/-- C9: `fuzzy_search` returns exactly the catalog entries whose name contains
the query case-insensitively, sorted descending (stably) by the relevance
score (+100 prefix, +200 exact, +50 per word starting with the query); in
particular the spec's example ranks exact above prefix above containment. -/
theorem c9_fuzzy_search_spec :
    (∀ (query : String) (apps : List App),
      List.Perm (fuzzy_search query apps)
        (apps.filter (fun a => containsSub (strToLower a.name) (strToLower query))) ∧
      (fuzzy_search query apps).Pairwise (fun a b =>
        fuzzy_score (strToLower query) (strToLower b.name) ≤
          fuzzy_score (strToLower query) (strToLower a.name)) ∧
      (∀ v : Int,
        (fuzzy_search query apps).filter
          (fun a => fuzzy_score (strToLower query) (strToLower a.name) == v) =
        (apps.filter (fun a => containsSub (strToLower a.name) (strToLower query))).filter
          (fun a => fuzzy_score (strToLower query) (strToLower a.name) == v))) ∧
    fuzzy_search "doom" [⟨"DOOM Eternal", 1⟩, ⟨"Doom", 2⟩, ⟨"Pseudoom", 3⟩] =
      [⟨"Doom", 2⟩, ⟨"DOOM Eternal", 1⟩, ⟨"Pseudoom", 3⟩] := by
  refine ⟨fun query apps => ⟨fuzzy_search_perm query apps,
    fuzzy_search_pairwise query apps, fuzzy_search_stable query apps⟩, by decide⟩

end SteamFolderFinder
